import Mathlib

/-!
Shallow embedding of the performance-tracker core of the repository
(`src/utils.ts`, `src/PerformanceModal.tsx`, `src/App.tsx`).

JavaScript numbers are modelled as exact rationals (`ℚ`); every formula in
the core uses only literals that are handled exactly at the precision the
spec states, so no floating-point rounding is modelled.  `Math.round` is
modelled as `⌊q + 1/2⌋` (round half toward positive infinity), which is its
mathematical behaviour.  Values that can be JavaScript `NaN` are modelled by
the two-constructor type `JSNum` further below.
-/

/-- The `DateData` interface of `utils.ts`: one scored entry. -/
structure DateData where
  performance : ℚ
  hours : ℚ
  overtime : Bool
  freeDay : Bool

/-- JavaScript `Math.round`: rounds to the nearest integer, half toward
positive infinity, i.e. `⌊q + 1/2⌋`. -/
def jsRound (q : ℚ) : ℤ := ⌊q + 1/2⌋

/-- `effectiveHours` from `utils.ts` (lines 24–50), translated clause by
clause: free-day branch, overtime branch with the `[8,16]` clamp, then the
three-piece normal-day formula. -/
def effectiveHours (hours : ℚ) (overtime : Bool) (freeDay : Bool) : ℚ :=
  if freeDay then
    hours * 0.967
  else if overtime then
    let clampedHours := max 8 (min hours 16)
    7.25 + (clampedHours - 8) * 0.967
  else
    if hours < 4 then hours
    else if hours ≤ 8 then hours - 0.75
    else 7.25 + (hours - 8) * 0.967

/-- `computePerformancePercentage` from `utils.ts` (lines 57–61):
`eff ≤ 0` returns the sentinel `0`, otherwise
`Math.round((performance / eff) * 100)`. -/
def computePerformancePercentage (entry : DateData) : ℤ :=
  let eff := effectiveHours entry.hours entry.overtime entry.freeDay
  if eff ≤ 0 then 0 else jsRound (entry.performance / eff * 100)

/-- `calculatePercentage` from `utils.ts` (lines 87–90): linear rescaling of
a mean performance onto the display band. -/
def calculatePercentage (value : ℚ) : ℤ :=
  jsRound ((value - 7.25) / (10.88 - 7.25) * 50 + 100)

/-- C1: on a normal day (`freeDay = false`, `overtime = false`) the effective
hours are `hours` below 4 hours, `hours - 0.75` between 4 and 8 hours, and
`7.25 + (hours - 8) * 0.967` above 8 hours; in particular the values at
8, 3.9 and 4 are 7.25, 3.9 and 3.25. -/
theorem effectiveHours_normal_day (h : ℚ) (hnn : 0 ≤ h) :
    (h < 4 → effectiveHours h false false = h) ∧
    (4 ≤ h → h ≤ 8 → effectiveHours h false false = h - 0.75) ∧
    (8 < h → effectiveHours h false false = 7.25 + (h - 8) * 0.967) ∧
    effectiveHours 8 false false = 7.25 ∧
    effectiveHours 3.9 false false = 3.9 ∧
    effectiveHours 4 false false = 3.25 := by
  refine ⟨?_, ?_, ?_, by norm_num [effectiveHours], by norm_num [effectiveHours],
    by norm_num [effectiveHours]⟩
  · intro h4
    simp only [effectiveHours, Bool.false_eq_true, if_false, if_pos h4]
  · intro h4 h8
    simp only [effectiveHours, Bool.false_eq_true, if_false]
    rw [if_neg (by linarith), if_pos h8]
  · intro h8
    simp only [effectiveHours, Bool.false_eq_true, if_false]
    rw [if_neg (by linarith), if_neg (by linarith)]

/-- Witness for C1 at the concrete input `hours = 5`. -/
theorem effectiveHours_normal_day_witness :
    effectiveHours 5 false false = 5 - 0.75 :=
  (effectiveHours_normal_day 5 (by norm_num)).2.1 (by norm_num) (by norm_num)

/-- C2: with `overtime = true` and `freeDay = false`, `effectiveHours` equals
`7.25 + (max 8 (min hours 16) - 8) * 0.967`; it is non-decreasing on
`[8, 16]`, constantly `7.25` for `hours ≤ 8` and constantly
`7.25 + 8 * 0.967` for `hours ≥ 16`. -/
theorem effectiveHours_overtime_clamp :
    (∀ h : ℚ, effectiveHours h true false = 7.25 + (max 8 (min h 16) - 8) * 0.967) ∧
    (∀ h₁ h₂ : ℚ, 8 ≤ h₁ → h₁ ≤ h₂ → h₂ ≤ 16 →
      effectiveHours h₁ true false ≤ effectiveHours h₂ true false) ∧
    (∀ h : ℚ, h ≤ 8 → effectiveHours h true false = 7.25) ∧
    (∀ h : ℚ, 16 ≤ h → effectiveHours h true false = 7.25 + 8 * 0.967) := by
  have base : ∀ h : ℚ,
      effectiveHours h true false = 7.25 + (max 8 (min h 16) - 8) * 0.967 := by
    intro h
    simp [effectiveHours]
  refine ⟨base, ?_, ?_, ?_⟩
  · intro h₁ h₂ hl hm hr
    rw [base, base, min_eq_left (le_trans hm hr), min_eq_left hr,
      max_eq_right hl, max_eq_right (le_trans hl hm)]
    linarith
  · intro h hle
    rw [base, max_eq_left (le_trans (min_le_left h 16) hle)]
    norm_num
  · intro h hge
    rw [base, min_eq_right hge, max_eq_right (by norm_num)]
    norm_num

/-- Witness for C2 at concrete inputs: the clamp form at 12 hours and the
two pinned regimes at 5 and 20 hours. -/
theorem effectiveHours_overtime_clamp_witness :
    effectiveHours 12 true false = 7.25 + (max 8 (min 12 16) - 8) * 0.967 ∧
    effectiveHours 5 true false = 7.25 ∧
    effectiveHours 20 true false = 7.25 + 8 * 0.967 :=
  ⟨effectiveHours_overtime_clamp.1 12,
   effectiveHours_overtime_clamp.2.2.1 5 (by norm_num),
   effectiveHours_overtime_clamp.2.2.2 20 (by norm_num)⟩

/-- C3: with `freeDay = true` the result is `hours * 0.967` for either value
of the overtime flag: the free-day branch overrides overtime, with no clamp
and no base-hours split. -/
theorem effectiveHours_free_day (h : ℚ) (ot : Bool) (hnn : 0 ≤ h) :
    effectiveHours h ot true = h * 0.967 := by
  simp [effectiveHours]

/-- Witness for C3 at `hours = 6` with the overtime flag set. -/
theorem effectiveHours_free_day_witness :
    effectiveHours 6 true true = 6 * 0.967 :=
  effectiveHours_free_day 6 true (by norm_num)

/-- C4: `computePerformancePercentage` returns the sentinel `0` whenever the
effective hours are `≤ 0` (no exception is possible: the function is total),
and otherwise returns the integer nearest to
`performance / effectiveHours * 100`, half rounded up: the result `n`
satisfies `n - 1/2 ≤ q < n + 1/2` for the exact quotient `q`. -/
theorem computePerformancePercentage_cases (e : DateData) :
    (effectiveHours e.hours e.overtime e.freeDay ≤ 0 →
      computePerformancePercentage e = 0) ∧
    (0 < effectiveHours e.hours e.overtime e.freeDay →
      (computePerformancePercentage e : ℚ) - 1/2 ≤
        e.performance / effectiveHours e.hours e.overtime e.freeDay * 100 ∧
      e.performance / effectiveHours e.hours e.overtime e.freeDay * 100 <
        (computePerformancePercentage e : ℚ) + 1/2) := by
  constructor
  · intro hle
    simp [computePerformancePercentage, hle]
  · intro hpos
    have hne : ¬ effectiveHours e.hours e.overtime e.freeDay ≤ 0 := not_le.mpr hpos
    simp only [computePerformancePercentage, if_neg hne, jsRound]
    constructor
    · have := Int.floor_le
        (e.performance / effectiveHours e.hours e.overtime e.freeDay * 100 + 1/2)
      linarith
    · have := Int.lt_floor_add_one
        (e.performance / effectiveHours e.hours e.overtime e.freeDay * 100 + 1/2)
      linarith

/-- Witness for C4 at the concrete entry (performance 7.25, 8 hours,
no flags): the effective hours are positive and the returned percentage is
the half-up rounding of the exact quotient 100. -/
theorem computePerformancePercentage_cases_witness :
    (computePerformancePercentage ⟨7.25, 8, false, false⟩ : ℚ) - 1/2 ≤
      (7.25 : ℚ) / effectiveHours 8 false false * 100 ∧
    (7.25 : ℚ) / effectiveHours 8 false false * 100 <
      (computePerformancePercentage ⟨7.25, 8, false, false⟩ : ℚ) + 1/2 :=
  (computePerformancePercentage_cases ⟨7.25, 8, false, false⟩).2
    (by norm_num [effectiveHours])

/-- C7 counterexample: at the entry with performance −5, 8 hours and no
flags, `computePerformancePercentage` returns a negative value
(−69 = round(−5 / 7.25 × 100)), so the function does not return a
non-negative integer for every entry. -/
theorem computePerformancePercentage_negative_cex :
    computePerformancePercentage ⟨-5, 8, false, false⟩ < 0 := by
  have : computePerformancePercentage ⟨-5, 8, false, false⟩ = jsRound (-5 / 7.25 * 100) := by
    norm_num [computePerformancePercentage, effectiveHours]
  rw [this, jsRound]
  have : ⌊(-5 / 7.25 * 100 : ℚ) + 1/2⌋ = -69 := by
    rw [Int.floor_eq_iff]
    norm_num
  omega

/-- C7 amended: `computePerformancePercentage` always returns an integer
(its codomain), and the integer is non-negative for every entry whose raw
performance is non-negative. -/
theorem computePerformancePercentage_nonneg (e : DateData)
    (hperf : 0 ≤ e.performance) : 0 ≤ computePerformancePercentage e := by
  simp only [computePerformancePercentage, jsRound]
  split_ifs with h
  · exact le_refl 0
  · have hpos : 0 < effectiveHours e.hours e.overtime e.freeDay := not_le.mp h
    have hq : (0 : ℚ) ≤
        e.performance / effectiveHours e.hours e.overtime e.freeDay * 100 := by
      positivity
    exact Int.le_floor.mpr (by push_cast; linarith)

/-- Witness for C7's amended theorem at the entry (performance 0, 8 hours,
no flags). -/
theorem computePerformancePercentage_nonneg_witness :
    0 ≤ computePerformancePercentage ⟨0, 8, false, false⟩ :=
  computePerformancePercentage_nonneg ⟨0, 8, false, false⟩ (by norm_num)

/-! ### Shift classification (`App.tsx` and `PerformanceModal.tsx`) -/

/-- The three shift categories of the classifier. -/
inductive ShiftCategory where
  | morning
  | evening
  | night
deriving DecidableEq

/-- `getOngoingShift` from `App.tsx` (lines 34–48), with the ambient current
time injected as its minute-of-day `totalMins = getHours() * 60 +
getMinutes()`; the guarded ranges are evaluated top to bottom. -/
def getOngoingShift (totalMins : ℕ) : ShiftCategory :=
  let timeToMins := fun (h m : ℕ) => h * 60 + m
  let morningStart := timeToMins 5 45
  let morningEnd := timeToMins 14 15
  let eveningStart := timeToMins 13 45
  let eveningEnd := timeToMins 22 15
  let inRange := fun (t s e : ℕ) => s ≤ t ∧ t < e
  if inRange totalMins morningStart morningEnd then .morning
  else if inRange totalMins eveningStart eveningEnd then .evening
  else .night

/-- `getDefaultStartTime` from `PerformanceModal.tsx` (lines 56–70), with the
ambient current time injected as its minute-of-day. -/
def getDefaultStartTime (totalMins : ℕ) : String :=
  let morningStart := 5 * 60 + 45
  let morningEnd := 14 * 60 + 15
  let eveningStart := 13 * 60 + 45
  let eveningEnd := 22 * 60 + 15
  if morningStart ≤ totalMins ∧ totalMins < morningEnd then "05:45"
  else if eveningStart ≤ totalMins ∧ totalMins < eveningEnd then "13:45"
  else "21:45"

/-- C9: every minute-of-day in the overlap window [13:45, 14:15) classifies
as morning because the morning range is tested first — in particular 14:00
(minute 840) does — and the default start time always matches the category:
"05:45" for morning, "13:45" for evening, "21:45" for night. -/
theorem shift_overlap_resolves_morning :
    (∀ t : ℕ, 13 * 60 + 45 ≤ t → t < 14 * 60 + 15 →
      getOngoingShift t = ShiftCategory.morning) ∧
    getOngoingShift (14 * 60) = ShiftCategory.morning ∧
    (∀ t : ℕ, getDefaultStartTime t =
      match getOngoingShift t with
      | ShiftCategory.morning => "05:45"
      | ShiftCategory.evening => "13:45"
      | ShiftCategory.night => "21:45") := by
  refine ⟨?_, by decide, ?_⟩
  · intro t h1 h2
    simp only [getOngoingShift]
    rw [if_pos ⟨by omega, by omega⟩]
  · intro t
    simp only [getOngoingShift, getDefaultStartTime]
    split_ifs <;> rfl

/-- Witness for C9 at minute 830 (13:50, inside the overlap window). -/
theorem shift_overlap_resolves_morning_witness :
    getOngoingShift 830 = ShiftCategory.morning :=
  shift_overlap_resolves_morning.1 830 (by norm_num) (by norm_num)

/-! ### Clock-time arithmetic (`PerformanceModal.tsx`)

`computeHoursFromTimes` manipulates JavaScript numbers that can be `NaN`
(via `Number` conversion of malformed components and via invalid `Date`
values), so its values are modelled by `JSNum`. -/

/-- A JavaScript number as used by the clock-time pipeline: either an exact
rational or `NaN`. -/
inductive JSNum where
  | num (q : ℚ)
  | nan
deriving DecidableEq

/-- The JavaScript `<` comparison: any comparison involving `NaN` is false. -/
def jsLt : JSNum → JSNum → Bool
  | .num a, .num b => decide (a < b)
  | _, _ => false

/-- JavaScript subtraction: `NaN` on either side propagates. -/
def jsSub : JSNum → JSNum → JSNum
  | .num a, .num b => .num (a - b)
  | _, _ => .nan

/-- JavaScript division by a constant: `NaN` propagates. -/
def jsDiv : JSNum → ℚ → JSNum
  | .num a, c => .num (a / c)
  | .nan, _ => .nan

/-- Truncation toward zero of a finite JavaScript number, as the `Date`
constructor applies to each of its arguments (ToIntegerOrInfinity). -/
def jsTruncate (q : ℚ) : ℤ := if 0 ≤ q then ⌊q⌋ else -⌊-q⌋

/-- Models `new Date(0, 0, day, h, m).getTime()` in milliseconds, up to the
fixed epoch offset of `Date(0, 0, 0, 0, 0)`, which cancels in the difference
the caller takes; a `NaN` (or `undefined`) hour or minute yields an invalid
date, whose `getTime()` is `NaN`, and finite components are truncated toward
zero as ToIntegerOrInfinity prescribes, then overflow arithmetically into
days/hours.  Not modelled: a time value beyond `Date`'s ±8.64e15 ms range
would be invalid (`NaN`) in JavaScript but stays finite here — the
statements below evaluate this function only at `NaN` or at hour/minute
components below 100, far inside the range. -/
def dateGetTime (day : ℚ) : JSNum → JSNum → JSNum
  | .num h, .num m =>
    .num (((day * 24 + (jsTruncate h : ℚ)) * 60 + (jsTruncate m : ℚ)) * 60000)
  | _, _ => .nan

/-- JavaScript `String.prototype.split` with a one-character separator,
acting on the character list of the string. -/
def splitOnChar (sep : Char) : List Char → List (List Char)
  | [] => [[]]
  | c :: cs =>
    if c = sep then [] :: splitOnChar sep cs
    else
      match splitOnChar sep cs with
      | [] => [[c]]
      | t :: ts => (c :: t) :: ts

/-- Decimal value of a digit string, most significant first (the value the
JavaScript `Number` conversion gives an all-digit string). -/
def digitsVal (cs : List Char) : ℕ :=
  cs.foldl (fun a c => a * 10 + (c.toNat - 48)) 0

/-- The ECMAScript WhiteSpace and LineTerminator characters that `Number`
trims from a string before conversion. -/
def isStrWhiteSpace (c : Char) : Bool :=
  c.toNat = 9 || c.toNat = 10 || c.toNat = 11 || c.toNat = 12 || c.toNat = 13 ||
  c.toNat = 32 || c.toNat = 160 || c.toNat = 0x1680 ||
  (0x2000 ≤ c.toNat && c.toNat ≤ 0x200A) || c.toNat = 0x2028 || c.toNat = 0x2029 ||
  c.toNat = 0x202F || c.toNat = 0x205F || c.toNat = 0x3000 || c.toNat = 0xFEFF

/-- Strips leading and trailing ECMAScript whitespace. -/
def trimWS (cs : List Char) : List Char :=
  ((cs.dropWhile isStrWhiteSpace).reverse.dropWhile isStrWhiteSpace).reverse

/-- Value of a digit string in base `b`, with digit values given by `f`. -/
def baseVal (b : ℕ) (f : Char → ℕ) (cs : List Char) : ℕ :=
  cs.foldl (fun a c => a * b + f c) 0

/-- Hexadecimal digit test (0–9, a–f, A–F). -/
def isHexDigit (c : Char) : Bool :=
  c.isDigit || ('a' ≤ c && c ≤ 'f') || ('A' ≤ c && c ≤ 'F')

/-- Value of a hexadecimal digit. -/
def hexDigitVal (c : Char) : ℕ :=
  if c.isDigit then c.toNat - 48
  else if 'a' ≤ c ∧ c ≤ 'f' then c.toNat - 87
  else c.toNat - 55

/-- Octal digit test. -/
def isOctDigit (c : Char) : Bool := '0' ≤ c && c ≤ '7'

/-- Binary digit test. -/
def isBinDigit (c : Char) : Bool := c = '0' || c = '1'

/-- Parses the mantissa of a StrUnsignedDecimalLiteral — `digits`,
`digits . digits?` or `. digits` — returning its exact value and the
unconsumed remainder (a potential exponent part). -/
def parseUnsignedDecMantissa (cs : List Char) : Option (ℚ × List Char) :=
  let ip := cs.takeWhile Char.isDigit
  let rest := cs.dropWhile Char.isDigit
  if rest.head? = some '.' then
    let fp := rest.tail.takeWhile Char.isDigit
    let rest3 := rest.tail.dropWhile Char.isDigit
    if ip = [] ∧ fp = [] then none
    else some ((digitsVal ip : ℚ) + (digitsVal fp : ℚ) / ((10 ^ fp.length : ℕ) : ℚ),
      rest3)
  else if ip = [] then none
  else some ((digitsVal ip : ℚ), rest)

/-- Parses an optional ExponentPart (`e`/`E`, optional sign, digits); the
empty remainder means exponent 0, and anything else malformed. -/
def parseExponent (cs : List Char) : Option ℤ :=
  if cs = [] then some 0
  else if cs.head? = some 'e' ∨ cs.head? = some 'E' then
    let t := cs.tail
    if t.head? = some '+' then
      if t.tail ≠ [] ∧ t.tail.all Char.isDigit then some (digitsVal t.tail) else none
    else if t.head? = some '-' then
      if t.tail ≠ [] ∧ t.tail.all Char.isDigit then some (-(digitsVal t.tail : ℤ))
      else none
    else if t ≠ [] ∧ t.all Char.isDigit then some (digitsVal t) else none
  else none

/-- A StrUnsignedDecimalLiteral without the `Infinity` form: mantissa then
optional exponent, as an exact rational. -/
def parseUnsignedDecimal (cs : List Char) : Option ℚ :=
  match parseUnsignedDecMantissa cs with
  | some (m, rest) =>
    match parseExponent rest with
    | some e =>
      some (if 0 ≤ e then m * ((10 ^ e.toNat : ℕ) : ℚ)
        else m / ((10 ^ (-e).toNat : ℕ) : ℚ))
    | none => none
  | none => none

/-- A NonDecimalIntegerLiteral: `0x`/`0X` hex, `0o`/`0O` octal or `0b`/`0B`
binary digits (no sign permitted before these forms). -/
def parseNonDecimal (cs : List Char) : Option ℚ :=
  match cs with
  | c0 :: x :: ds =>
    if c0 = '0' then
      if x = 'x' ∨ x = 'X' then
        if ds ≠ [] ∧ ds.all isHexDigit then some (baseVal 16 hexDigitVal ds) else none
      else if x = 'o' ∨ x = 'O' then
        if ds ≠ [] ∧ ds.all isOctDigit then some (baseVal 8 (fun c => c.toNat - 48) ds)
        else none
      else if x = 'b' ∨ x = 'B' then
        if ds ≠ [] ∧ ds.all isBinDigit then some (baseVal 2 (fun c => c.toNat - 48) ds)
        else none
      else none
    else none
  | _ => none

/-- The ECMAScript StrNumericLiteral grammar applied to a whitespace-trimmed
string: empty converts to 0, then a non-decimal integer literal, or an
optional sign followed by `Infinity` or an unsigned decimal literal;
everything else is `NaN`. -/
def jsNumberCore (cs : List Char) : JSNum :=
  if cs = [] then .num 0
  else
    match parseNonDecimal cs with
    | some v => .num v
    | none =>
      let sgn : ℚ := if cs.head? = some '-' then -1 else 1
      let body := if cs.head? = some '+' ∨ cs.head? = some '-' then cs.tail else cs
      if body = ['I', 'n', 'f', 'i', 'n', 'i', 't', 'y'] then .nan
      else
        match parseUnsignedDecimal body with
        | some v => .num (sgn * v)
        | none => .nan

/-- Models the JavaScript `Number` conversion of a string: trim ECMAScript
whitespace, then apply the StrNumericLiteral grammar (decimal literals with
optional sign, fraction and exponent; hex/octal/binary integer literals;
`Infinity` forms; numeric separators are not allowed here), yielding `NaN`
for anything the grammar rejects.  Two deliberate deviations, neither
observable in the statements below: values are exact rationals rather than
IEEE doubles (coinciding on the all-digit components the exact-value
theorems use, and irrelevant to `NaN`-ness), and the non-finite `±Infinity`
results are collapsed into `.nan` — behaviourally identical in this
pipeline, because an infinite `Date` component makes the date invalid
(`getTime()` is `NaN`) just as a `NaN` component does; the `eh < sh`
comparison can pick a different day offset for an infinity than for `NaN`,
but both branches then subtract an invalid date and produce the same `NaN`
difference. -/
def jsNumber (cs : List Char) : JSNum := jsNumberCore (trimWS cs)

/-- The body of `computeHoursFromTimes` after component destructuring
(`PerformanceModal.tsx` lines 26–32): build the two `Date` values, treat the
end as next-day when its hour component is below the start's, divide the
millisecond difference by `1000 * 60 * 60`, and clamp negatives to 0. -/
def hoursFromComponents (sh sm eh em : JSNum) : JSNum :=
  let startDate := dateGetTime 0 sh sm
  let endDate := if jsLt eh sh then dateGetTime 1 eh em else dateGetTime 0 eh em
  let diff := jsDiv (jsSub endDate startDate) (1000 * 60 * 60)
  if jsLt diff (.num 0) then .num 0 else diff

/-- `computeHoursFromTimes` from `PerformanceModal.tsx` (lines 22–33).  The
guard `!start || !end` is true exactly for empty strings.  A component
missing after `split` destructures to `undefined`, which behaves exactly
like `NaN` in the `Date` constructor and in `<`, so it is modelled by
`.nan` via `getD`. -/
def computeHoursFromTimes (start endTime : String) : JSNum :=
  if start = "" ∨ endTime = "" then .num 0
  else
    let s := (splitOnChar ':' start.toList).map jsNumber
    let e := (splitOnChar ':' endTime.toList).map jsNumber
    hoursFromComponents (s.getD 0 .nan) (s.getD 1 .nan) (e.getD 0 .nan) (e.getD 1 .nan)

/-- C10: an empty start or end string returns exactly 0, whatever the other
argument holds — the guard fires before any parsing. -/
theorem computeHoursFromTimes_empty (s e : String) (h : s = "" ∨ e = "") :
    computeHoursFromTimes s e = JSNum.num 0 := by
  unfold computeHoursFromTimes
  rw [if_pos h]

/-- Witness for C10: empty start beside an unparseable end string. -/
theorem computeHoursFromTimes_empty_witness :
    computeHoursFromTimes "" "garbage" = JSNum.num 0 :=
  computeHoursFromTimes_empty "" "garbage" (Or.inl rfl)

/-! ### Well-formed clock strings -/

/-- The two-digit zero-padded decimal rendering of `n < 100`. -/
def pad2 (n : ℕ) : List Char :=
  if n < 10 then ['0', Char.ofNat (48 + n)]
  else [Char.ofNat (48 + n / 10), Char.ofNat (48 + n % 10)]

/-- The zero-padded "HH:mm" string denoting `h` hours and `m` minutes: the
spec-side constructor of well-formed ClockTime values. -/
def clockString (h m : ℕ) : String := ⟨pad2 h ++ ':' :: pad2 m⟩

lemma digit_char_isDigit (d : ℕ) (hd : d < 10) :
    (Char.ofNat (48 + d)).isDigit = true := by
  interval_cases d <;> decide

lemma digit_char_toNat (d : ℕ) (hd : d < 10) :
    (Char.ofNat (48 + d)).toNat = 48 + d := by
  interval_cases d <;> decide

lemma digit_char_ne_colon (d : ℕ) (hd : d < 10) : Char.ofNat (48 + d) ≠ ':' := by
  interval_cases d <;> decide

lemma colon_not_mem_pad2 (n : ℕ) (hn : n < 100) : ':' ∉ pad2 n := by
  by_cases h : n < 10
  · have := digit_char_ne_colon n h
    simp only [pad2, if_pos h, List.mem_cons, List.mem_singleton]
    rintro (hc | hc | hc)
    · exact absurd hc.symm (by decide)
    · exact this hc.symm
    · cases hc
  · have h1 : n / 10 < 10 := by omega
    have h2 : n % 10 < 10 := by omega
    simp only [pad2, if_neg h, List.mem_cons, List.mem_singleton]
    rintro (hc | hc | hc)
    · exact digit_char_ne_colon _ h1 hc.symm
    · exact digit_char_ne_colon _ h2 hc.symm
    · cases hc

lemma digit_char_not_ws (d : ℕ) (hd : d < 10) :
    isStrWhiteSpace (Char.ofNat (48 + d)) = false := by
  interval_cases d <;> decide

lemma digit_char_ne_sign (d : ℕ) (hd : d < 10) :
    Char.ofNat (48 + d) ≠ '+' ∧ Char.ofNat (48 + d) ≠ '-' := by
  interval_cases d <;> exact ⟨by decide, by decide⟩

lemma digit_char_ne_radix (d : ℕ) (hd : d < 10) :
    Char.ofNat (48 + d) ≠ 'x' ∧ Char.ofNat (48 + d) ≠ 'X' ∧
    Char.ofNat (48 + d) ≠ 'o' ∧ Char.ofNat (48 + d) ≠ 'O' ∧
    Char.ofNat (48 + d) ≠ 'b' ∧ Char.ofNat (48 + d) ≠ 'B' := by
  interval_cases d <;>
    exact ⟨by decide, by decide, by decide, by decide, by decide, by decide⟩

lemma trimWS_two (a b : Char) (ha : isStrWhiteSpace a = false)
    (hb : isStrWhiteSpace b = false) : trimWS [a, b] = [a, b] := by
  simp [trimWS, List.dropWhile_cons, ha, hb]

lemma digitsVal_two (d1 d2 : ℕ) (h1 : d1 < 10) (h2 : d2 < 10) :
    digitsVal [Char.ofNat (48 + d1), Char.ofNat (48 + d2)] = d1 * 10 + d2 := by
  simp only [digitsVal, List.foldl, digit_char_toNat d1 h1, digit_char_toNat d2 h2]
  omega

lemma jsNumberCore_two_digits (d1 d2 : ℕ) (h1 : d1 < 10) (h2 : d2 < 10) :
    jsNumberCore [Char.ofNat (48 + d1), Char.ofNat (48 + d2)] =
      JSNum.num ((d1 : ℚ) * 10 + d2) := by
  have hd1 := digit_char_isDigit d1 h1
  have hd2 := digit_char_isDigit d2 h2
  have hpn : parseNonDecimal [Char.ofNat (48 + d1), Char.ofNat (48 + d2)] = none := by
    obtain ⟨hx, hX, ho, hO, hb, hB⟩ := digit_char_ne_radix d2 h2
    simp only [parseNonDecimal]
    by_cases h0 : Char.ofNat (48 + d1) = '0'
    · rw [if_pos h0, if_neg (by rintro (h | h) <;> [exact hx h; exact hX h]),
        if_neg (by rintro (h | h) <;> [exact ho h; exact hO h]),
        if_neg (by rintro (h | h) <;> [exact hb h; exact hB h])]
    · rw [if_neg h0]
  have hmant :
      parseUnsignedDecMantissa [Char.ofNat (48 + d1), Char.ofNat (48 + d2)] =
        some (((d1 : ℚ) * 10 + d2), []) := by
    simp only [parseUnsignedDecMantissa, List.takeWhile, List.dropWhile, hd1, hd2,
      List.head?, digitsVal_two d1 d2 h1 h2]
    push_cast
    simp
  have hdec :
      parseUnsignedDecimal [Char.ofNat (48 + d1), Char.ofNat (48 + d2)] =
        some ((d1 : ℚ) * 10 + d2) := by
    simp only [parseUnsignedDecimal, hmant, parseExponent]
    norm_num
  obtain ⟨hplus, hminus⟩ := digit_char_ne_sign d1 h1
  simp only [jsNumberCore, hpn, hdec]
  simp [hplus, hminus]
  rw [hdec]

lemma jsNumber_pad2 (n : ℕ) (hn : n < 100) : jsNumber (pad2 n) = JSNum.num n := by
  by_cases h : n < 10
  · have hz : ('0' : Char) = Char.ofNat (48 + 0) := by decide
    rw [jsNumber]
    simp only [pad2, if_pos h, hz]
    rw [trimWS_two _ _ (digit_char_not_ws 0 (by norm_num)) (digit_char_not_ws n h),
      jsNumberCore_two_digits 0 n (by norm_num) h]
    norm_num
  · have h1 : n / 10 < 10 := by omega
    have h2 : n % 10 < 10 := by omega
    rw [jsNumber]
    simp only [pad2, if_neg h]
    rw [trimWS_two _ _ (digit_char_not_ws _ h1) (digit_char_not_ws _ h2),
      jsNumberCore_two_digits _ _ h1 h2]
    congr 1
    exact_mod_cast congrArg (Nat.cast : ℕ → ℚ) (by omega : n / 10 * 10 + n % 10 = n)

lemma splitOnChar_not_mem (sep : Char) (xs : List Char) (hx : sep ∉ xs) :
    splitOnChar sep xs = [xs] := by
  induction xs with
  | nil => rfl
  | cons c cs ih =>
    have hc : ¬ c = sep := fun h => hx (h ▸ List.mem_cons_self c cs)
    rw [splitOnChar, if_neg hc, ih (fun h => hx (List.mem_cons_of_mem c h))]

lemma splitOnChar_append (sep : Char) (xs ys : List Char) (hx : sep ∉ xs) :
    splitOnChar sep (xs ++ sep :: ys) = xs :: splitOnChar sep ys := by
  induction xs with
  | nil => simp [splitOnChar]
  | cons c cs ih =>
    have hc : ¬ c = sep := fun h => hx (h ▸ List.mem_cons_self c cs)
    rw [List.cons_append, splitOnChar, if_neg hc,
      ih (fun h => hx (List.mem_cons_of_mem c h))]

lemma clockString_toList (h m : ℕ) :
    (clockString h m).toList = pad2 h ++ ':' :: pad2 m := rfl

lemma clockString_parses (h m : ℕ) (hh : h < 100) (hm : m < 100) :
    (splitOnChar ':' (clockString h m).toList).map jsNumber =
      [JSNum.num h, JSNum.num m] := by
  rw [clockString_toList, splitOnChar_append ':' _ _ (colon_not_mem_pad2 h hh),
    splitOnChar_not_mem ':' _ (colon_not_mem_pad2 m hm), List.map_cons,
    List.map_singleton, jsNumber_pad2 h hh, jsNumber_pad2 m hm]

lemma clockString_ne_empty (h m : ℕ) : clockString h m ≠ "" := by
  intro hEq
  have hdata : pad2 h ++ ':' :: pad2 m = [] := by
    have := congrArg String.toList hEq
    rwa [clockString_toList] at this
  rcases List.append_eq_nil.mp hdata with ⟨-, hcons⟩
  cases hcons

lemma clamp_eq_max (q : ℚ) :
    (if q < 0 then JSNum.num 0 else JSNum.num q) = JSNum.num (max 0 q) := by
  split_ifs with h
  · rw [max_eq_left (le_of_lt h)]
  · rw [max_eq_right (not_lt.mp h)]

lemma jsTruncate_natCast (n : ℕ) : jsTruncate (n : ℚ) = (n : ℤ) := by
  unfold jsTruncate
  rw [if_pos (by positivity), Int.floor_natCast]

lemma hoursFromComponents_num (sh sm eh em : ℕ) :
    hoursFromComponents (.num sh) (.num sm) (.num eh) (.num em) =
      .num (max 0 ((((if (eh : ℚ) < (sh : ℚ) then (eh : ℚ) + 24 else (eh : ℚ)) * 60 +
        em) - ((sh : ℚ) * 60 + sm)) / 60)) := by
  rcases lt_or_le (eh : ℚ) (sh : ℚ) with hlt | hle
  · simp only [hoursFromComponents, jsLt, decide_eq_true_eq, if_pos hlt,
      dateGetTime, jsSub, jsDiv, jsTruncate_natCast, Int.cast_natCast]
    rw [clamp_eq_max]
    congr 2
    ring
  · simp only [hoursFromComponents, jsLt, decide_eq_true_eq,
      if_neg (not_lt.mpr hle), dateGetTime, jsSub, jsDiv, jsTruncate_natCast,
      Int.cast_natCast]
    rw [clamp_eq_max]
    congr 2
    ring

/-- C8: on well-formed clock times, `computeHoursFromTimes` returns end minus
start in hours, adding 24 hours when the end's hour component is strictly
below the start's (next-day rollover), clamped to a minimum of 0; in
particular "21:45" to "06:15" gives 8.5 hours. -/
theorem computeHoursFromTimes_wellformed :
    (∀ sh sm eh em : ℕ, sh < 24 → sm < 60 → eh < 24 → em < 60 →
      computeHoursFromTimes (clockString sh sm) (clockString eh em) =
        JSNum.num (max 0 ((((if eh < sh then (eh : ℚ) + 24 else (eh : ℚ)) * 60 + em) -
          ((sh : ℚ) * 60 + sm)) / 60))) ∧
    computeHoursFromTimes "21:45" "06:15" = JSNum.num 8.5 := by
  have main : ∀ sh sm eh em : ℕ, sh < 24 → sm < 60 → eh < 24 → em < 60 →
      computeHoursFromTimes (clockString sh sm) (clockString eh em) =
        JSNum.num (max 0 ((((if eh < sh then (eh : ℚ) + 24 else (eh : ℚ)) * 60 + em) -
          ((sh : ℚ) * 60 + sm)) / 60)) := by
    intro sh sm eh em hsh hsm heh hem
    unfold computeHoursFromTimes
    rw [if_neg (by
      push_neg
      exact ⟨clockString_ne_empty sh sm, clockString_ne_empty eh em⟩)]
    simp only [clockString_parses sh sm (by omega) (by omega),
      clockString_parses eh em (by omega) (by omega),
      List.getD_cons_zero, List.getD_cons_succ, hoursFromComponents_num,
      Nat.cast_lt]
  refine ⟨main, ?_⟩
  have e1 : clockString 21 45 = "21:45" := rfl
  have e2 : clockString 6 15 = "06:15" := rfl
  rw [← e1, ← e2,
    main 21 45 6 15 (by norm_num) (by norm_num) (by norm_num) (by norm_num)]
  norm_num

/-- Witness for C8's quantified part at the rollover pair 21:45 → 06:15. -/
theorem computeHoursFromTimes_wellformed_witness :
    computeHoursFromTimes (clockString 21 45) (clockString 6 15) =
      JSNum.num 8.5 :=
  (computeHoursFromTimes_wellformed.1 21 45 6 15 (by norm_num) (by norm_num)
    (by norm_num) (by norm_num)).trans (by norm_num)

/-! ### Malformed clock strings -/

lemma hoursFromComponents_nan (sh sm eh em : JSNum)
    (h : sh = JSNum.nan ∨ sm = JSNum.nan ∨ eh = JSNum.nan ∨ em = JSNum.nan) :
    hoursFromComponents sh sm eh em = JSNum.nan := by
  cases sh <;> cases sm <;> cases eh <;> cases em <;>
    simp_all [hoursFromComponents, dateGetTime, jsLt, jsSub, jsDiv]

/-- The error taxonomy of the spec for clock-time parsing. -/
inductive TimeError where
  | invalidTimeFormat
deriving DecidableEq

/-- Modelled from the spec: parsing of a ClockTime string into an
hour/minute integer pair, succeeding exactly when the string is two
all-digit components separated by a colon. -/
def parseClockComponents (s : String) : Option (ℕ × ℕ) :=
  match splitOnChar ':' s.toList with
  | [h, m] =>
    if h ≠ [] ∧ h.all Char.isDigit ∧ m ≠ [] ∧ m.all Char.isDigit then
      some (digitsVal h, digitsVal m)
    else none
  | _ => none

/-- Modelled from the spec: `durationHours` as §4.1 and §7 describe it —
failing with `InvalidTimeFormat`, propagated to the caller, when a component
does not parse as an integer pair, and otherwise returning the rollover
duration clamped at 0.  The code under `src/` has no such failure path; this
definition exists to state that divergence. -/
def durationHoursSpec (start endTime : String) : Except TimeError ℚ :=
  match parseClockComponents start, parseClockComponents endTime with
  | some (sh, sm), some (eh, em) =>
    .ok (max 0 ((((if eh < sh then (eh : ℚ) + 24 else (eh : ℚ)) * 60 + em) -
      ((sh : ℚ) * 60 + sm)) / 60))
  | _, _ => .error .invalidTimeFormat

/-- C6 counterexample: on the unparseable start string "ab:cd",
`computeHoursFromTimes` does not fail and propagates no error — it returns
the ordinary `NaN` value — while the behaviour the spec describes
(`durationHoursSpec`) is the propagated `InvalidTimeFormat` error. -/
theorem computeHoursFromTimes_no_error_cex :
    computeHoursFromTimes "ab:cd" "06:15" = JSNum.nan ∧
    durationHoursSpec "ab:cd" "06:15" =
      Except.error TimeError.invalidTimeFormat := by
  constructor <;> rfl

/-- C6 amended: when neither string is empty and any of the four components
fails the JavaScript `Number` conversion (`jsNumber` yields `NaN`; components
that do convert, such as "1.5" or "+6", are outside this hypothesis and
produce ordinary finite results), `computeHoursFromTimes` returns `NaN` to
the caller — a returned value, not a raised or propagated error, and no
repair is attempted. -/
theorem computeHoursFromTimes_malformed (start endTime : String)
    (hs : start ≠ "") (he : endTime ≠ "")
    (hbad : ((splitOnChar ':' start.toList).map jsNumber).getD 0 JSNum.nan = JSNum.nan ∨
            ((splitOnChar ':' start.toList).map jsNumber).getD 1 JSNum.nan = JSNum.nan ∨
            ((splitOnChar ':' endTime.toList).map jsNumber).getD 0 JSNum.nan = JSNum.nan ∨
            ((splitOnChar ':' endTime.toList).map jsNumber).getD 1 JSNum.nan = JSNum.nan) :
    computeHoursFromTimes start endTime = JSNum.nan := by
  unfold computeHoursFromTimes
  rw [if_neg (by push_neg; exact ⟨hs, he⟩)]
  exact hoursFromComponents_nan _ _ _ _ hbad

/-- Witness for C6's amended theorem at the concrete strings
("ab:cd", "06:15"). -/
theorem computeHoursFromTimes_malformed_witness :
    computeHoursFromTimes "ab:cd" "06:15" = JSNum.nan :=
  computeHoursFromTimes_malformed "ab:cd" "06:15" (by decide) (by decide)
    (Or.inl (by rfl))

/-! ### Period aggregation

`App.tsx` invokes `calculateAverage(data, filterDates, track)` over records
of type `DailyData` (optional `normal`/`forklift` slots); the copy of
`utils.ts` under `src/` holds an earlier two-argument revision of that
function (no `track` argument, entries typed as flat `DateData`), so the
track-aware aggregator is modelled from the spec below. -/

/-- The two entry tracks of a DailyRecord. -/
inductive Track where
  | normal
  | forklift
deriving DecidableEq

/-- Modelled from the spec (§3): an entry as stored in a DailyRecord; its
raw performance is a JavaScript number that may be non-numeric (`NaN`). -/
structure RawEntry where
  performance : JSNum
  hours : ℚ
  overtime : Bool
  freeDay : Bool
deriving DecidableEq

/-- Modelled from the spec (§3): a DailyRecord with the two optional named
slots `normal` and `forklift`. -/
structure DailyRecord where
  normal : Option RawEntry
  forklift : Option RawEntry
deriving DecidableEq

/-- The slot of a DailyRecord selected by a track. -/
def trackEntry (r : DailyRecord) : Track → Option RawEntry
  | .normal => r.normal
  | .forklift => r.forklift

/-- The raw performance of a possibly-missing entry, with a non-numeric or
missing value treated as 0 (the `isNaN(perf) ? 0 : perf` guard of the
aggregator's reduce step). -/
def rawPerf : Option RawEntry → ℚ
  | some e =>
    match e.performance with
    | .num q => q
    | .nan => 0
  | none => 0

/-- Modelled from the spec (§4.5): the track-aware `calculateAverage`
(`meanPerformance`) that `App.tsx` calls, which is not among the sources
under `src/`.  It keeps the keys whose parsed date satisfies the filter and
whose DailyRecord has the requested track populated, sums the surviving raw
performances, and divides by the surviving count, defaulting to 0.  The
parse of a "YYYY-MM-DD" key to its local-midnight moment is abstracted as
the injected function `parse`. -/
def meanPerformance {α : Type} (parse : String → α) (dateFilter : α → Bool)
    (data : List (String × DailyRecord)) (track : Track) : ℚ :=
  let filteredDates := data.filter fun kv =>
    dateFilter (parse kv.1) && (trackEntry kv.2 track).isSome
  let total := filteredDates.foldl
    (fun sum kv => sum + rawPerf (trackEntry kv.2 track)) 0
  if filteredDates.length > 0 then total / filteredDates.length else 0

lemma foldl_add_eq_sum {β : Type} (f : β → ℚ) (l : List β) (a : ℚ) :
    l.foldl (fun s x => s + f x) a = a + (l.map f).sum := by
  induction l generalizing a with
  | nil => simp
  | cons x xs ih => simp [ih, add_assoc]

/-- C5: `meanPerformance` keeps exactly the keys whose parsed date passes the
filter and whose DailyRecord has the requested track populated; on an empty
selection it returns 0 (no division happens), and otherwise it returns the
sum of the surviving raw performances (non-numeric or missing read as 0)
divided by the number of surviving keys. -/
theorem meanPerformance_characterization {α : Type} (parse : String → α)
    (dateFilter : α → Bool) (data : List (String × DailyRecord)) (track : Track) :
    (data.filter (fun kv => dateFilter (parse kv.1) &&
        (trackEntry kv.2 track).isSome) = [] →
      meanPerformance parse dateFilter data track = 0) ∧
    (data.filter (fun kv => dateFilter (parse kv.1) &&
        (trackEntry kv.2 track).isSome) ≠ [] →
      meanPerformance parse dateFilter data track =
        ((data.filter (fun kv => dateFilter (parse kv.1) &&
            (trackEntry kv.2 track).isSome)).map
          (fun kv => rawPerf (trackEntry kv.2 track))).sum /
        (data.filter (fun kv => dateFilter (parse kv.1) &&
            (trackEntry kv.2 track).isSome)).length) := by
  constructor
  · intro hsel
    simp only [meanPerformance, hsel]
    simp
  · intro hne
    simp only [meanPerformance]
    rw [if_pos (List.length_pos.mpr hne), foldl_add_eq_sum, zero_add]

/-- Witness for C5 on concrete data: of two date keys passing the date
filter, only the first has the `normal` track populated, so the mean over
the `normal` track is that single entry's raw performance. -/
theorem meanPerformance_characterization_witness :
    meanPerformance (fun _ => ()) (fun _ => true)
      [("2024-01-03", ⟨some ⟨JSNum.num 10, 8, false, false⟩, none⟩),
       ("2024-01-05", ⟨none, some ⟨JSNum.num 99, 8, false, false⟩⟩)]
      Track.normal = 10 :=
  ((meanPerformance_characterization (fun _ => ()) (fun _ => true)
      [("2024-01-03", ⟨some ⟨JSNum.num 10, 8, false, false⟩, none⟩),
       ("2024-01-05", ⟨none, some ⟨JSNum.num 99, 8, false, false⟩⟩)]
      Track.normal).2 (by decide)).trans (by norm_num [trackEntry, rawPerf])
